import Mathlib

/-!
Verification of the MemMachine API v2 router and filter parser
(`src/memmachine/server/api_v2/router.py`,
`src/memmachine/server/api_v2/filter_parser.py`).

Python strings are embedded as `List Char`; Python `dict`s as association
lists with Python's update semantics (existing key keeps its position, value
is replaced); fallible lookups as `Except`.  The external session store is
modelled as a key-to-record map; the memory engine is modelled by the trace
of calls each handler issues against it.
-/

namespace MemMachine

/-- Python strings are embedded as lists of characters. -/
abbrev Str := List Char

/-- Convenience conversion from Lean string literals. -/
def str (s : String) : Str := s.data

/-! ## Python string primitives (`str.strip`, `str.split`, membership) -/

/-- The whitespace characters removed by Python `str.strip()` (ASCII subset). -/
def pyIsSpace (c : Char) : Bool :=
  c = ' ' || c = '\t' || c = '\n' || c = '\r' || c = '\x0b' || c = '\x0c'

/-- Python `str.lstrip()`. -/
def lstrip (l : Str) : Str := l.dropWhile pyIsSpace

/-- Python `str.rstrip()`. -/
def rstrip (l : Str) : Str := (l.reverse.dropWhile pyIsSpace).reverse

/-- Python `str.strip()`. -/
def strip (l : Str) : Str := rstrip (lstrip l)

/-- Python `"and" in s` / scanning occurrence test: true iff `pat` occurs as a
contiguous substring of the argument. -/
def containsSub (pat : Str) : Str → Bool
  | [] => pat.isPrefixOf []
  | c :: rest => pat.isPrefixOf (c :: rest) || containsSub pat rest

/-- Python `s.split("and")`: split on every non-overlapping occurrence of the
literal substring `and`, scanning left to right. -/
def splitOnAnd : Str → List Str
  | 'a' :: 'n' :: 'd' :: rest => [] :: splitOnAnd rest
  | c :: rest =>
    match splitOnAnd rest with
    | [] => [[]]
    | h :: t => (c :: h) :: t
  | [] => [[]]

/-- Python `condition.split("=", 1)`: split on the first `=` only.  Only ever
applied to lists containing `=`; on an `=`-free list it returns the list as
the key and an empty value. -/
def splitEqOnce : Str → Str × Str
  | [] => ([], [])
  | c :: rest =>
    if c = '=' then ([], rest)
    else
      let kv := splitEqOnce rest
      (c :: kv.1, kv.2)

/-! ## Python dict (insertion-ordered, update-in-place) -/

/-- Python `d[k] = v`: replace the value at an existing key (keeping its
position), else append the pair. -/
def dictInsert {α β : Type} [DecidableEq α] (k : α) (v : β) :
    List (α × β) → List (α × β)
  | [] => [(k, v)]
  | (k', v') :: rest =>
    if k' = k then (k', v) :: rest else (k', v') :: dictInsert k v rest

/-- Python `d.get(k)`. -/
def dictFind {α β : Type} [DecidableEq α] (k : α) : List (α × β) → Option β
  | [] => none
  | (k', v) :: rest => if k' = k then some v else dictFind k rest

/-! ## `filter_parser.py` -/

/-- The loop body of `parse_filter`: skip a segment without `=`, otherwise
split it on the first `=`, trim both sides and assign into the dict. -/
def parse_filter_step (d : List (Str × Str)) (cond : Str) : List (Str × Str) :=
  if cond.contains '=' then
    let kv := splitEqOnce cond
    dictInsert (strip kv.1) (strip kv.2) d
  else d

/-- `parse_filter` from `filter_parser.py`.  The `None`/absent input of the
claims is modelled by `Option`; `if not filter_str` treats `None` and the
empty string alike. -/
def parse_filter (filter_str : Option Str) : List (Str × Str) :=
  match filter_str with
  | none => []
  | some s =>
    if s.isEmpty then []
    else (splitOnAnd s).foldl parse_filter_step []

/-- The body of `parse_filter` run inside its `try`/`except`, with the
exception channel made explicit in an `Except` monad.  Every primitive a
loop iteration uses (`str.split`, `str.strip`, dict assignment) is total on
string input, so each iteration is a `pure` computation; the
`except Exception` branch would map a raised error to
`ValueError("Invalid filter format: ...")`. -/
def parse_filter_checked (filter_str : Option Str) :
    Except Str (List (Str × Str)) :=
  match filter_str with
  | none => Except.ok []
  | some s =>
    if s.isEmpty then Except.ok []
    else
      (splitOnAnd s).foldlM
        (fun d cond => (pure (parse_filter_step d cond) : Except Str _)) []

/-! ## Session-key namespace and session provisioning (`router.py`) -/

/-- `f"{org_id}/{project_id}"`: the session key used by every handler. -/
def make_key (org_id project_id : Str) : Str := org_id ++ str "/" ++ project_id

/-- Python truthiness of an optional string (`if x:`): `None` and the empty
string are falsy. -/
def truthyStr : Option Str → Bool
  | some s => !s.isEmpty
  | none => false

/-- Python `a or d` for `a : str | None`. -/
def pyOrStr (a : Option Str) (d : Str) : Str :=
  match a with
  | some s => if s.isEmpty then d else s
  | none => d

/-- `LongTermMemoryConf` as constructed by `_create_new_session`. -/
structure LongTermMemoryConf where
  session_id : Str
  vector_graph_store : Str
  embedder : Str
  reranker : Str
deriving DecidableEq

/-- `ShortTermMemoryConf` as constructed by `_create_new_session`. -/
structure ShortTermMemoryConf where
  session_key : Str
  llm_model : Str
  summary_prompt_system : Str
  summary_prompt_user : Str
deriving DecidableEq

/-- `EpisodicMemoryConf` as constructed by `_create_new_session`. -/
structure EpisodicMemoryConf where
  session_key : Str
  long_term_memory : LongTermMemoryConf
  short_term_memory : ShortTermMemoryConf
  long_term_memory_enabled : Bool
  short_term_memory_enabled : Bool
  enabled : Bool
deriving DecidableEq

/-- What `session_manager.create_new_session` stores for a key: the resolved
`EpisodicMemoryConf` plus the free-text description. -/
structure SessionRecord where
  param : EpisodicMemoryConf
  description : Str
deriving DecidableEq

/-- Modelled from the spec: the app configuration reached through
`request.app.state.resource_manager._conf` (its schema lives outside the
provided sources).  Per the spec's ConfigCascade, the long-term-memory
section may carry per-session embedder / reranker / vector-store values. -/
structure AppLongTermMemoryConf where
  embedder : Option Str
  reranker : Option Str
  vector_graph_store : Option Str
deriving DecidableEq

/-- Modelled from the spec: short-term-memory section of the app
configuration (LLM model and summarisation prompt templates).  -/
structure AppShortTermMemoryConf where
  llm_model : Option Str
  summary_prompt_system : Option Str
  summary_prompt_user : Option Str
deriving DecidableEq

/-- Modelled from the spec: episodic-memory section of the app
configuration. -/
structure AppEpisodicMemoryConf where
  long_term_memory : Option AppLongTermMemoryConf
  short_term_memory : Option AppShortTermMemoryConf
deriving DecidableEq

/-- Modelled from the spec: global prompt-template section of the app
configuration (`conf.prompt`). -/
structure PromptConf where
  episode_summary_system_prompt : Str
  episode_summary_user_prompt : Str
deriving DecidableEq

/-- Modelled from the spec: the app configuration object; `none` models a
falsy `conf` argument to `_create_session_if_not_exists`. -/
structure AppConf where
  episodic_memory : Option AppEpisodicMemoryConf
  prompt : Option PromptConf
deriving DecidableEq

/-- The literal placeholder `{max_length}` required by the summariser. -/
def maxLengthTok : Str := str "{max_length}"

/-- The hard-coded default user summarisation prompt of
`_create_new_session`. -/
def defaultUserPrompt : Str :=
  str ("Summarize the following episodes:\n{episodes}\n\n" ++
    "Previous summary:\n{summary}\n\n" ++
    "Max length: {max_length}")

/-- `_create_new_session`: resolve remaining per-field defaults and build the
record submitted to the external session store. -/
def create_new_session (session_key : Str) (description : Str)
    (embedder : Str) (reranker : Str) (vector_graph_store : Option Str)
    (llm_model : Option Str) (summary_prompt_system : Option Str)
    (summary_prompt_user : Option Str) : SessionRecord :=
  let vector_store := pyOrStr vector_graph_store (str "default_store")
  let llm := pyOrStr llm_model (str "gpt-4.1")
  let system_prompt := pyOrStr summary_prompt_system (str "You are a helpful assistant.")
  let user_prompt := pyOrStr summary_prompt_user defaultUserPrompt
  { param :=
      { session_key := session_key
        long_term_memory :=
          { session_id := session_key
            vector_graph_store := vector_store
            embedder := embedder
            reranker := reranker }
        short_term_memory :=
          { session_key := session_key
            llm_model := llm
            summary_prompt_system := system_prompt
            summary_prompt_user := user_prompt }
        long_term_memory_enabled := true
        short_term_memory_enabled := true
        enabled := true }
    description := description }

/-- The per-field values `_create_session_if_not_exists` resolves from the
app configuration before calling `_create_new_session`. -/
structure ResolvedDefaults where
  embedder : Str
  reranker : Str
  vector_graph_store : Option Str
  llm_model : Option Str
  summary_prompt_system : Option Str
  summary_prompt_user : Option Str
deriving DecidableEq

/-- Python `x = v if v else x` on an optional-string field (`if field:` guard
around an assignment of a required string value). -/
def overrideIfTruthy (cur : Str) (v : Option Str) : Str :=
  if truthyStr v then v.getD cur else cur

/-- Same as `overrideIfTruthy` for a variable of optional-string type. -/
def overrideOptIfTruthy (cur : Option Str) (v : Option Str) : Option Str :=
  if truthyStr v then v else cur

/-- The configuration-resolution block of `_create_session_if_not_exists`:
start from hard-coded defaults, override from the episodic-memory config
section field by field (each guarded by truthiness), then fall back to the
global prompt config for prompts that are still unset; on that fallback path
only, append a `Max length: {max_length}` clause when the template lacks the
placeholder. -/
def resolve_defaults (conf : Option AppConf) : ResolvedDefaults :=
  match conf with
  | none =>
    { embedder := str "default", reranker := str "default"
      vector_graph_store := none, llm_model := none
      summary_prompt_system := none, summary_prompt_user := none }
  | some c =>
    let ltm := c.episodic_memory.bind (·.long_term_memory)
    let stm := c.episodic_memory.bind (·.short_term_memory)
    let embedder := overrideIfTruthy (str "default") (ltm.bind (·.embedder))
    let reranker := overrideIfTruthy (str "default") (ltm.bind (·.reranker))
    let vector_graph_store :=
      overrideOptIfTruthy none (ltm.bind (·.vector_graph_store))
    let llm_model := overrideOptIfTruthy none (stm.bind (·.llm_model))
    let sps0 := overrideOptIfTruthy none (stm.bind (·.summary_prompt_system))
    let spu0 := overrideOptIfTruthy none (stm.bind (·.summary_prompt_user))
    let summary_prompt_system :=
      if !truthyStr sps0 then
        match c.prompt with
        | some p => some p.episode_summary_system_prompt
        | none => sps0
      else sps0
    let summary_prompt_user :=
      if !truthyStr spu0 then
        match c.prompt with
        | some p =>
          let prompt_user := p.episode_summary_user_prompt
          let prompt_user :=
            if containsSub maxLengthTok prompt_user then prompt_user
            else prompt_user ++ str "\n\nMax length: {max_length}"
          some prompt_user
        | none => spu0
      else spu0
    { embedder := embedder, reranker := reranker
      vector_graph_store := vector_graph_store, llm_model := llm_model
      summary_prompt_system := summary_prompt_system
      summary_prompt_user := summary_prompt_user }

/-- The `summary_prompt_user` value `_create_session_if_not_exists` ends up
submitting to the session store for a fresh session (the stored record's
short-term-memory prompt field). -/
def submitted_summary_prompt_user (conf : Option AppConf) (session_key : Str) : Str :=
  let d := resolve_defaults conf
  (create_new_session session_key [] d.embedder d.reranker d.vector_graph_store
    d.llm_model d.summary_prompt_system d.summary_prompt_user
    ).param.short_term_memory.summary_prompt_user

/-- Failures of the external session store's lookup: the session is unknown,
or the call itself failed in transit. -/
inductive StoreError
  | notFound
  | transportError
deriving DecidableEq

/-- The external session store, modelled as a key-to-record map. -/
abbrev SessionStore := List (Str × SessionRecord)

/-- Modelled from the spec: `session_manager.get_session_info`, the external
session store's lookup — returns the stored record or fails. -/
def get_session_info (store : SessionStore) (session_key : Str) :
    Except StoreError SessionRecord :=
  match dictFind session_key store with
  | some r => Except.ok r
  | none => Except.error StoreError.notFound

/-- `_session_exists`: `try` the store lookup, `except Exception: return
False`, else `return True` — any failure whatsoever reads as absence and
nothing propagates. -/
def session_exists (lookup_result : Except StoreError SessionRecord) : Bool :=
  match lookup_result with
  | Except.ok _ => true
  | Except.error _ => false

/-- `_create_session_if_not_exists`: check existence, and when absent resolve
the defaults and submit the new session record to the store. -/
def create_session_if_not_exists (conf : Option AppConf) (session_key : Str)
    (store : SessionStore) : SessionStore :=
  if session_exists (get_session_info store session_key) then store
  else
    let d := resolve_defaults conf
    dictInsert session_key
      (create_new_session session_key [] d.embedder d.reranker
        d.vector_graph_store d.llm_model d.summary_prompt_system
        d.summary_prompt_user)
      store

/-! ## The episodic-memory gateway handlers -/

/-- An episode as the delete handler sees it in a query result: the
identifier may be `None` for not-yet-persisted items.  Fields other than
`uid` are opaque to every claim and collapsed into `content`. -/
structure Episode where
  uid : Option Str
  content : Str
deriving DecidableEq

/-- The value `episodic_memory.query_memory` returns: short-term results,
long-term results and a third component the delete handler discards
(modelled opaquely). -/
structure EngineQueryResult where
  short_term : List Episode
  long_term : List Episode
  extra : Str
deriving DecidableEq

/-- The calls a handler issues against the session store and the memory
engine, in order.  `ensureSession` is a call to
`_create_session_if_not_exists`; `openScope` / `closeScope` bracket the
`async with episodic_memory_manager.open_episodic_memory(...)` block. -/
inductive EngineEvent
  | ensureSession (key : Str)
  | openScope (key : Str)
  | queryMemory (key : Str) (query : Str) (limit : Option Nat)
      (property_filter : List (Str × Str))
  | addEpisode (key : Str) (content : Str)
  | deleteEpisodes (key : Str) (episode_ids : List Str)
  | closeScope (key : Str)
deriving DecidableEq

/-- One element of `AddMemoriesSpec.messages`; only the content is tracked
by the trace model (timestamp/producer/role/metadata shape the stored
episode, which no claim inspects). -/
structure Message where
  content : Str
deriving DecidableEq

/-- Request body of `POST /memories`. -/
structure AddMemoriesSpec where
  org_id : Str
  project_id : Str
  messages : List Message
deriving DecidableEq

/-- Request body of `POST /memories/search`. -/
structure SearchMemoriesSpec where
  org_id : Str
  project_id : Str
  query : Str
  top_k : Option Nat
  filter : Option Str
  types : Option (List Str)
deriving DecidableEq

/-- Request body of `POST /memories/list`. -/
structure ListMemoriesSpec where
  org_id : Str
  project_id : Str
deriving DecidableEq

/-- Request body of `POST /memories/delete`. -/
structure DeleteMemoriesSpec where
  org_id : Str
  project_id : Str
  filter : Option Str
deriving DecidableEq

/-- Request body of `POST /memories/episodic/delete`. -/
structure DeleteEpisodicMemorySpec where
  org_id : Str
  project_id : Str
  episodic_id : Str
deriving DecidableEq

/-- A value stored under a partition key of a `SearchResult.content` dict:
either the literal empty list or a raw engine query result (the search
handler assigns `query_memory`'s return value unchanged). -/
inductive MemVal
  | emptyList
  | engineResult (r : EngineQueryResult)
deriving DecidableEq

/-- `SearchResult(content={"episodic_memory": [], "semantic_memory": []})`,
the aggregate both search and list start from. -/
def emptySearchContent : List (Str × MemVal) :=
  [(str "episodic_memory", MemVal.emptyList),
   (str "semantic_memory", MemVal.emptyList)]

/-- `spec.types if spec.types else ["episodic", "semantic"]`. -/
def memory_types_of (types : Option (List Str)) : List Str :=
  match types with
  | some ts => if ts.isEmpty then [str "episodic", str "semantic"] else ts
  | none => [str "episodic", str "semantic"]

/-- `add_memories` (`POST /memories`): provision the session, then add one
episode per message inside the opened scope. -/
def add_memories (spec : AddMemoriesSpec) : List EngineEvent :=
  let session_key := make_key spec.org_id spec.project_id
  [EngineEvent.ensureSession session_key, EngineEvent.openScope session_key] ++
    spec.messages.map (fun m => EngineEvent.addEpisode session_key m.content) ++
    [EngineEvent.closeScope session_key]

/-- `search_memories` (`POST /memories/search`): provision the session, open
the scope, query the episodic partition when requested, overwrite the
semantic partition with the empty list when requested.  Returns the
aggregate content together with the event trace; `engine_result` is what the
engine answers to the episodic query. -/
def search_memories (spec : SearchMemoriesSpec)
    (engine_result : EngineQueryResult) :
    List (Str × MemVal) × List EngineEvent :=
  let session_key := make_key spec.org_id spec.project_id
  let memory_types := memory_types_of spec.types
  let step1 :=
    if memory_types.contains (str "episodic") then
      (dictInsert (str "episodic_memory") (MemVal.engineResult engine_result)
        emptySearchContent,
       [EngineEvent.queryMemory session_key spec.query spec.top_k
          (parse_filter spec.filter)])
    else (emptySearchContent, ([] : List EngineEvent))
  let content :=
    if memory_types.contains (str "semantic") then
      dictInsert (str "semantic_memory") MemVal.emptyList step1.1
    else step1.1
  (content,
   [EngineEvent.ensureSession session_key, EngineEvent.openScope session_key] ++
     step1.2 ++ [EngineEvent.closeScope session_key])

/-- `list_memories` (`POST /memories/list`): provision, open the scope, and
return the stub aggregate with both partitions empty. -/
def list_memories (spec : ListMemoriesSpec) :
    List (Str × MemVal) × List EngineEvent :=
  let session_key := make_key spec.org_id spec.project_id
  (emptySearchContent,
   [EngineEvent.ensureSession session_key, EngineEvent.openScope session_key,
    EngineEvent.closeScope session_key])

/-- `delete_memories` (`POST /memories/delete`): open the scope directly,
query with the empty query string and the parsed filter, and delete the
non-null identifiers of both partitions in one request. -/
def delete_memories (spec : DeleteMemoriesSpec)
    (engine_result : EngineQueryResult) : List EngineEvent :=
  let session_key := make_key spec.org_id spec.project_id
  let short_term := engine_result.short_term
  let long_term := engine_result.long_term
  [EngineEvent.openScope session_key,
   EngineEvent.queryMemory session_key [] none (parse_filter spec.filter),
   EngineEvent.deleteEpisodes session_key
     ((short_term ++ long_term).filterMap Episode.uid),
   EngineEvent.closeScope session_key]

/-- `delete_episodic_memory` (`POST /memories/episodic/delete`): open the
scope directly and delete the single given identifier. -/
def delete_episodic_memory (spec : DeleteEpisodicMemorySpec) :
    List EngineEvent :=
  let session_key := make_key spec.org_id spec.project_id
  [EngineEvent.openScope session_key,
   EngineEvent.deleteEpisodes session_key [spec.episodic_id],
   EngineEvent.closeScope session_key]

/-- Outcome a handler reports to the transport layer. -/
inductive HandlerOutcome
  | ok
  | httpError (status : Nat)
deriving DecidableEq

/-- The identifiers of the `session_info` body the deprecated dependency
reads. -/
structure SessionInfoReq where
  org_id : Str
  project_id : Str
deriving DecidableEq

/-- The deprecated `get_episodic_memory` dependency: compute the key, run
provisioning against the store, then unconditionally raise HTTP 501. -/
def get_episodic_memory (conf : Option AppConf) (info : SessionInfoReq)
    (store : SessionStore) : SessionStore × HandlerOutcome :=
  let session_key := make_key info.org_id info.project_id
  (create_session_if_not_exists conf session_key store,
   HandlerOutcome.httpError 501)

/-- True iff the trace calls session provisioning for `k` strictly before the
first scope acquisition for `k` (and such an acquisition occurs). -/
def provisionBeforeScope (k : Str) : List EngineEvent → Bool
  | [] => false
  | EngineEvent.ensureSession k' :: rest =>
    if k' = k then rest.contains (EngineEvent.openScope k)
    else provisionBeforeScope k rest
  | EngineEvent.openScope k' :: rest =>
    if k' = k then false else provisionBeforeScope k rest
  | _ :: rest => provisionBeforeScope k rest

/-- True iff the trace contains any session-provisioning call. -/
def hasEnsureSession (t : List EngineEvent) : Bool :=
  t.any fun e =>
    match e with
    | EngineEvent.ensureSession _ => true
    | _ => false

/-- All episode identifiers submitted for deletion anywhere in a trace. -/
def deleted_episode_ids (t : List EngineEvent) : List Str :=
  t.foldr
    (fun e acc =>
      match e with
      | EngineEvent.deleteEpisodes _ ids => ids ++ acc
      | _ => acc)
    []

/-- Number of delete requests issued in a trace. -/
def deleteRequestCount (t : List EngineEvent) : Nat :=
  t.countP fun e =>
    match e with
    | EngineEvent.deleteEpisodes _ _ => true
    | _ => false

/-- The episodic-memory configuration's own `summary_prompt_user` field, as
`_create_session_if_not_exists` reads it. -/
def configured_stm_prompt_user (conf : Option AppConf) : Option Str :=
  ((conf.bind (·.episodic_memory)).bind (·.short_term_memory)).bind
    (·.summary_prompt_user)

/-- An app configuration whose episodic-memory section supplies a
`summary_prompt_user` template without the `{max_length}` placeholder. -/
def badPromptConf : AppConf :=
  { episodic_memory := some
      { long_term_memory := none
        short_term_memory := some
          { llm_model := none
            summary_prompt_system := none
            summary_prompt_user :=
              some (str "Summarize {episodes} given {summary}.") } }
    prompt := none }

/-! ## Helper lemmas -/

theorem dictFind_dictInsert_self {α β : Type} [DecidableEq α] (k : α) (v : β)
    (d : List (α × β)) : dictFind k (dictInsert k v d) = some v := by
  induction d with
  | nil => simp [dictInsert, dictFind]
  | cons kv rest ih =>
    by_cases h : kv.1 = k
    · simp [dictInsert, dictFind, h]
    · simpa [dictInsert, dictFind, h] using ih

theorem str_and : str "and" = ['a', 'n', 'd'] := rfl

theorem str_eq_lit : str "=" = ['='] := rfl

theorem str_and_sp : str " and " = [' ', 'a', 'n', 'd', ' '] := rfl

theorem isPrefixOf_append_sep (c : Char) :
    ∀ (pat z y : Str), c ∉ pat →
      pat.isPrefixOf (z ++ c :: y) = pat.isPrefixOf z := by
  intro pat
  induction pat with
  | nil =>
    intro z y _
    cases z <;> rfl
  | cons a ps ih =>
    intro z y hc
    have hcps : c ∉ ps := fun hm => hc (List.mem_cons_of_mem a hm)
    cases z with
    | nil =>
      have hac : a ≠ c := by
        intro h
        refine hc ?_
        rw [← h]
        exact List.mem_cons_self a ps
      simp [List.isPrefixOf, hac]
    | cons b z' =>
      simp [List.isPrefixOf, ih z' y hcps]

theorem containsSub_append_sep {pat : Str} (c : Char) (hpat : pat ≠ [])
    (hc : c ∉ pat) :
    ∀ (x y : Str), containsSub pat (x ++ c :: y) =
      (containsSub pat x || containsSub pat y) := by
  intro x
  induction x with
  | nil =>
    intro y
    obtain ⟨a, ps, rfl⟩ := List.exists_cons_of_ne_nil hpat
    have hac : a ≠ c := by
      intro h
      refine hc ?_
      rw [← h]
      exact List.mem_cons_self a ps
    simp [containsSub, List.isPrefixOf, hac]
  | cons b x' ih =>
    intro y
    rw [List.cons_append]
    show (pat.isPrefixOf (b :: (x' ++ c :: y)) || containsSub pat (x' ++ c :: y))
      = (containsSub pat (b :: x') || containsSub pat y)
    rw [show b :: (x' ++ c :: y) = (b :: x') ++ c :: y from rfl,
      isPrefixOf_append_sep c pat (b :: x') y hc, ih y]
    show _ = (pat.isPrefixOf (b :: x') || containsSub pat x' || containsSub pat y)
    rw [Bool.or_assoc]

theorem containsSub_append_right {pat m : Str} (h : containsSub pat m = true)
    (l : Str) : containsSub pat (l ++ m) = true := by
  induction l with
  | nil => simpa using h
  | cons c l' ih => simp [containsSub, ih]

theorem no_and_head {c : Char} {rest : Str}
    (h : (['a', 'n', 'd'] : Str).isPrefixOf (c :: rest) = false) :
    ∀ r1 : List Char, c = 'a' → rest = 'n' :: 'd' :: r1 → False := by
  intro r1 hc hr
  subst hc
  subst hr
  simp [List.isPrefixOf] at h

theorem splitOnAnd_cons (c : Char) (rest : Str)
    (h : (['a', 'n', 'd'] : Str).isPrefixOf (c :: rest) = false) :
    splitOnAnd (c :: rest) =
      match splitOnAnd rest with
      | [] => [[]]
      | h :: t => (c :: h) :: t :=
  splitOnAnd.eq_2 c rest (no_and_head h)

theorem splitOnAnd_of_no_occ :
    ∀ l : Str, containsSub ['a', 'n', 'd'] l = false → splitOnAnd l = [l] := by
  intro l
  induction l with
  | nil => intro _; rfl
  | cons c rest ih =>
    intro h
    rw [show containsSub ['a', 'n', 'd'] (c :: rest)
        = ((['a', 'n', 'd'] : Str).isPrefixOf (c :: rest)
            || containsSub ['a', 'n', 'd'] rest) from rfl,
      Bool.or_eq_false_iff] at h
    rw [splitOnAnd_cons c rest h.1, ih h.2]

theorem isPrefixOf_and_append {c : Char} {A' : Str} (B : Str)
    (hA : containsSub ['a', 'n', 'd'] (c :: A') = false) :
    (['a', 'n', 'd'] : Str).isPrefixOf (c :: (A' ++ 'a' :: 'n' :: 'd' :: B))
      = false := by
  rcases A' with _ | ⟨x, A''⟩
  · simp [List.isPrefixOf]
  · rcases A'' with _ | ⟨y, A'''⟩
    · simp [List.isPrefixOf]
    · rw [show containsSub ['a', 'n', 'd'] (c :: x :: y :: A''')
          = ((['a', 'n', 'd'] : Str).isPrefixOf (c :: x :: y :: A''')
              || containsSub ['a', 'n', 'd'] (x :: y :: A''')) from rfl,
        Bool.or_eq_false_iff] at hA
      have h1 := hA.1
      simp only [List.isPrefixOf, List.cons_append] at h1 ⊢
      simpa using h1

theorem splitOnAnd_append (B : Str) :
    ∀ A : Str, containsSub ['a', 'n', 'd'] A = false →
      splitOnAnd (A ++ 'a' :: 'n' :: 'd' :: B) = A :: splitOnAnd B := by
  intro A
  induction A with
  | nil =>
    intro _
    rw [List.nil_append, splitOnAnd.eq_1]
  | cons c A' ih =>
    intro hA
    have hpre := isPrefixOf_and_append B hA
    rw [show containsSub ['a', 'n', 'd'] (c :: A')
        = ((['a', 'n', 'd'] : Str).isPrefixOf (c :: A')
            || containsSub ['a', 'n', 'd'] A') from rfl,
      Bool.or_eq_false_iff] at hA
    rw [List.cons_append, splitOnAnd_cons _ _ hpre, ih hA.2]

theorem strip_cons_space {c : Char} (h : pyIsSpace c = true) (l : Str) :
    strip (c :: l) = strip l := by
  simp [strip, lstrip, List.dropWhile_cons, h]

theorem rstrip_append_space {c : Char} (h : pyIsSpace c = true) (l : Str) :
    rstrip (l ++ [c]) = rstrip l := by
  simp [rstrip, List.reverse_append, List.dropWhile_cons, h]

theorem strip_append_space {c : Char} (h : pyIsSpace c = true) (l : Str) :
    strip (l ++ [c]) = strip l := by
  by_cases hall : lstrip l = []
  · have h1 : lstrip (l ++ [c]) = [] := by
      simp only [lstrip] at hall ⊢
      rw [List.dropWhile_append, hall]
      simp [List.dropWhile_cons, h]
    rw [strip, h1, strip, hall]
  · have hne : (List.dropWhile pyIsSpace l).isEmpty = false := by
      rw [List.isEmpty_eq_false]
      simpa [lstrip] using hall
    have h1 : lstrip (l ++ [c]) = lstrip l ++ [c] := by
      simp only [lstrip]
      rw [List.dropWhile_append, hne]
      simp
    rw [strip, h1, rstrip_append_space h, strip]

theorem splitEqOnce_append (v : Str) :
    ∀ k : Str, '=' ∉ k → splitEqOnce (k ++ '=' :: v) = (k, v) := by
  intro k
  induction k with
  | nil => intro _; simp [splitEqOnce]
  | cons c k' ih =>
    intro h
    have hc : c ≠ '=' := by
      intro he
      refine h ?_
      rw [← he]
      exact List.mem_cons_self c k'
    have h2 : '=' ∉ k' := fun hm => h (List.mem_cons_of_mem c hm)
    simp [splitEqOnce, hc, ih h2]

theorem contains_eq_of_mem {c : Char} {l : Str} (h : c ∈ l) :
    l.contains c = true := by
  induction l with
  | nil => cases h
  | cons a l' ih =>
    rcases List.mem_cons.mp h with h' | h'
    · simp [List.contains_cons, h']
    · simp [List.contains_cons]
      exact Or.inr h'

/-! ## Claim theorems -/

/-- C6: the session existence check answers `false` on every failed lookup,
whether the session was merely not found or the store call failed in
transit, and answers `true` on success; being a total `Bool`-valued
function, it propagates no lookup failure. -/
theorem session_exists_fail_open :
    (∀ e : StoreError, session_exists (Except.error e) = false) ∧
    (∀ r : SessionRecord, session_exists (Except.ok r) = true) :=
  ⟨fun _ => rfl, fun _ => rfl⟩

/-- C8: the deprecated `get_episodic_memory` dependency always reports
HTTP 501, and when the session was absent from the store it has nonetheless
been created there before the error is raised, so the failing call is not
state-preserving. -/
theorem get_episodic_memory_always_501 (conf : Option AppConf)
    (info : SessionInfoReq) (store : SessionStore) :
    (get_episodic_memory conf info store).2 = HandlerOutcome.httpError 501 ∧
    (dictFind (make_key info.org_id info.project_id) store = none →
      dictFind (make_key info.org_id info.project_id)
          (get_episodic_memory conf info store).1 ≠ none ∧
      (get_episodic_memory conf info store).1 ≠ store) := by
  refine ⟨rfl, fun habs => ?_⟩
  have hsome :
      dictFind (make_key info.org_id info.project_id)
        (get_episodic_memory conf info store).1 ≠ none := by
    simp only [get_episodic_memory, create_session_if_not_exists,
      get_session_info, habs, session_exists]
    simp [dictFind_dictInsert_self]
  refine ⟨hsome, fun heq => ?_⟩
  rw [heq] at hsome
  exact hsome habs

/-- C8 witness: a concrete run on the empty store. -/
theorem get_episodic_memory_always_501_witness :
    dictFind (make_key ['o'] ['p']) ([] : SessionStore) = none ∧
    (dictFind (make_key ['o'] ['p'])
        (get_episodic_memory none ⟨['o'], ['p']⟩ []).1 ≠ none ∧
      (get_episodic_memory none ⟨['o'], ['p']⟩ []).1 ≠ ([] : SessionStore)) :=
  ⟨by decide,
    (get_episodic_memory_always_501 none ⟨['o'], ['p']⟩ []).2 (by decide)⟩

/-- C1 counterexample: `delete_memories` acquires the memory-engine scope
without ever calling the session-provisioning step, so the claimed protocol
fails on the DeleteMemories-by-filter entry point. -/
theorem delete_memories_skips_provisioning :
    provisionBeforeScope (make_key ['o'] ['p'])
      (delete_memories ⟨['o'], ['p'], none⟩ ⟨[], [], []⟩) = false := by
  decide

/-- C1 amended: AddMemories, SearchMemories and ListMemories compute the
session key, call session provisioning and only then acquire the engine
scope; DeleteMemories-by-filter and DeleteEpisodicMemory-by-id compute the
session key and acquire the scope directly, issuing no provisioning call at
all. -/
theorem gateway_provisioning_protocol :
    (∀ spec : AddMemoriesSpec,
      provisionBeforeScope (make_key spec.org_id spec.project_id)
        (add_memories spec) = true) ∧
    (∀ (spec : SearchMemoriesSpec) (r : EngineQueryResult),
      provisionBeforeScope (make_key spec.org_id spec.project_id)
        (search_memories spec r).2 = true) ∧
    (∀ spec : ListMemoriesSpec,
      provisionBeforeScope (make_key spec.org_id spec.project_id)
        (list_memories spec).2 = true) ∧
    (∀ (spec : DeleteMemoriesSpec) (r : EngineQueryResult),
      hasEnsureSession (delete_memories spec r) = false ∧
      (delete_memories spec r).contains
        (EngineEvent.openScope (make_key spec.org_id spec.project_id)) = true) ∧
    (∀ spec : DeleteEpisodicMemorySpec,
      hasEnsureSession (delete_episodic_memory spec) = false ∧
      (delete_episodic_memory spec).contains
        (EngineEvent.openScope (make_key spec.org_id spec.project_id)) = true) := by
  refine ⟨fun spec => ?_, fun spec r => ?_, fun spec => ?_,
    fun spec r => ?_, fun spec => ?_⟩
  · simp [add_memories, provisionBeforeScope, List.contains_cons]
  · simp [search_memories, provisionBeforeScope, List.contains_cons]
  · simp [list_memories, provisionBeforeScope, List.contains_cons]
  · constructor
    · simp [delete_memories, hasEnsureSession]
    · simp [delete_memories, List.contains_cons]
  · constructor
    · simp [delete_episodic_memory, hasEnsureSession]
    · simp [delete_episodic_memory, List.contains_cons]

/-- C4: DeleteMemories-by-filter queries the scope with the empty query
string and the parsed filter, issues exactly one delete request, and the
identifiers it submits are exactly the non-null identifiers of the
short-term and long-term query results. -/
theorem delete_memories_ids_exact (spec : DeleteMemoriesSpec)
    (r : EngineQueryResult) :
    (delete_memories spec r).contains
      (EngineEvent.queryMemory (make_key spec.org_id spec.project_id) [] none
        (parse_filter spec.filter)) = true ∧
    deleteRequestCount (delete_memories spec r) = 1 ∧
    deleted_episode_ids (delete_memories spec r) =
      (r.short_term ++ r.long_term).filterMap Episode.uid ∧
    (∀ u : Str, u ∈ deleted_episode_ids (delete_memories spec r) ↔
      ∃ ep, ep ∈ r.short_term ++ r.long_term ∧ ep.uid = some u) := by
  refine ⟨?_, ?_, ?_, ?_⟩
  · simp [delete_memories, List.contains_cons]
  · simp [delete_memories, deleteRequestCount, List.countP_cons]
  · simp [delete_memories, deleted_episode_ids]
  · intro u
    have hids : deleted_episode_ids (delete_memories spec r) =
        (r.short_term ++ r.long_term).filterMap Episode.uid := by
      simp [delete_memories, deleted_episode_ids]
    rw [hids, List.mem_filterMap]

/-- C9: the filter parser returns normally on every input: run with the
exception channel of its `try`/`except` made explicit, it always produces
`ok` of the dictionary `parse_filter` computes, and the
`InvalidFilterFormat` branch is unreachable (every primitive the body uses
is total on string input). -/
theorem parse_filter_never_raises (fs : Option Str) :
    parse_filter_checked fs = Except.ok (parse_filter fs) := by
  have hfold : ∀ (l : List Str) (init : List (Str × Str)),
      List.foldlM (fun d cond => (pure (parse_filter_step d cond) : Except Str _))
          init l = Except.ok (List.foldl parse_filter_step init l) := by
    intro l
    induction l with
    | nil => intro init; rfl
    | cons c cs ih =>
      intro init
      rw [List.foldlM_cons, List.foldl_cons]
      exact ih (parse_filter_step init c)
  cases fs with
  | none => rfl
  | some s =>
    simp only [parse_filter_checked, parse_filter]
    by_cases h : s.isEmpty
    · simp [h]
    · simp only [h, if_false]
      exact hfold (splitOnAnd s) []

/-- C5: every SearchMemories aggregate carries both partition keys, the
semantic partition is the empty sequence unconditionally, and a request for
exactly the semantic type returns the aggregate with both partitions
empty. -/
theorem search_semantic_stub (spec : SearchMemoriesSpec)
    (r : EngineQueryResult) :
    (dictFind (str "episodic_memory") (search_memories spec r).1).isSome = true ∧
    dictFind (str "semantic_memory") (search_memories spec r).1 =
      some MemVal.emptyList ∧
    (spec.types = some [str "semantic"] →
      (search_memories spec r).1 = emptySearchContent) := by
  by_cases he : str "episodic" ∈ memory_types_of spec.types <;>
    by_cases hs : str "semantic" ∈ memory_types_of spec.types
  · refine ⟨?_, ?_, fun h => ?_⟩
    · simp [search_memories, he, hs]
      rfl
    · simp [search_memories, he, hs]
      rfl
    · rw [h] at he
      exact absurd he (by decide)
  · refine ⟨?_, ?_, fun h => ?_⟩
    · simp [search_memories, he, hs]
      rfl
    · simp [search_memories, he, hs]
      rfl
    · rw [h] at hs
      exact absurd hs (by decide)
  · refine ⟨?_, ?_, fun h => ?_⟩
    · simp [search_memories, he, hs]
      rfl
    · simp [search_memories, he, hs]
      rfl
    · simp [search_memories, he, hs]
      rfl
  · refine ⟨?_, ?_, fun h => ?_⟩
    · simp [search_memories, he, hs]
      rfl
    · simp [search_memories, he, hs]
      rfl
    · rw [h] at hs
      exact absurd hs (by decide)

/-- C5 witness: a concrete semantic-only search returns the empty
aggregate. -/
theorem search_semantic_stub_witness :
    (search_memories ⟨['o'], ['p'], [], none, none, some [str "semantic"]⟩
        ⟨[], [], []⟩).1 = emptySearchContent :=
  (search_semantic_stub ⟨['o'], ['p'], [], none, none, some [str "semantic"]⟩
    ⟨[], [], []⟩).2.2 rfl

/-- C10: a non-empty types list naming neither partition succeeds, issues no
engine query, and returns the full aggregate shape with both partitions
empty. -/
theorem search_unknown_types (spec : SearchMemoriesSpec)
    (r : EngineQueryResult) (ts : List Str) (hts : spec.types = some ts)
    (hne : ts ≠ []) (he : ts.contains (str "episodic") = false)
    (hs : ts.contains (str "semantic") = false) :
    (search_memories spec r).1 = emptySearchContent ∧
    (search_memories spec r).2 =
      [EngineEvent.ensureSession (make_key spec.org_id spec.project_id),
       EngineEvent.openScope (make_key spec.org_id spec.project_id),
       EngineEvent.closeScope (make_key spec.org_id spec.project_id)] := by
  have hmt : memory_types_of spec.types = ts := by
    rw [hts]
    simp [memory_types_of, List.isEmpty_iff, hne]
  have he' : str "episodic" ∉ ts := by simpa using he
  have hs' : str "semantic" ∉ ts := by simpa using hs
  constructor
  · simp [search_memories, hmt, he', hs']
  · simp [search_memories, hmt, he', hs']

/-- C10 witness: a concrete search with types `["foo"]`. -/
theorem search_unknown_types_witness :
    ([str "foo"] : List Str) ≠ [] ∧
    (search_memories ⟨['o'], ['p'], [], none, none, some [str "foo"]⟩
        ⟨[], [], []⟩).1 = emptySearchContent :=
  ⟨by decide,
    (search_unknown_types ⟨['o'], ['p'], [], none, none, some [str "foo"]⟩
      ⟨[], [], []⟩ [str "foo"] rfl (by decide) (by decide) (by decide)).1⟩

/-- Injectivity of appending around a single separator character that occurs
in neither left part. -/
theorem append_slash_inj : ∀ (o o' p p' : Str), '/' ∉ o → '/' ∉ o' →
    o ++ '/' :: p = o' ++ '/' :: p' → o = o' ∧ p = p' := by
  intro o
  induction o with
  | nil =>
    intro o' p p' _ ho' h
    cases o' with
    | nil =>
      simp only [List.nil_append] at h
      injection h with _ h2
      exact ⟨rfl, h2⟩
    | cons c t =>
      simp only [List.nil_append, List.cons_append] at h
      injection h with h1 _
      refine absurd ?_ ho'
      rw [h1]
      exact List.mem_cons_self c t
  | cons a o ih =>
    intro o' p p' ho ho' h
    cases o' with
    | nil =>
      simp only [List.nil_append, List.cons_append] at h
      injection h with h1 _
      refine absurd ?_ ho
      rw [← h1]
      exact List.mem_cons_self a o
    | cons c t =>
      simp only [List.cons_append] at h
      injection h with h1 h2
      have ho2 : '/' ∉ o := fun hm => ho (List.mem_cons_of_mem a hm)
      have ht2 : '/' ∉ t := fun hm => ho' (List.mem_cons_of_mem c hm)
      obtain ⟨e1, e2⟩ := ih t p p' ho2 ht2 h2
      exact ⟨by rw [h1, e1], e2⟩

/-- C7: the session key `org_id + "/" + project_id` is deterministic and, on
separator-free components, injective: two keys agree exactly when both
components agree. -/
theorem make_key_inj (o p o' p' : Str)
    (ho : '/' ∉ o) (ho' : '/' ∉ o') (hp : '/' ∉ p) (hp' : '/' ∉ p') :
    make_key o p = make_key o' p' ↔ (o = o' ∧ p = p') := by
  constructor
  · intro h
    apply append_slash_inj o o' p p' ho ho'
    simpa [make_key, str, List.append_assoc] using h
  · rintro ⟨rfl, rfl⟩
    rfl

/-- C3 counterexample: splitting on the literal substring `and` cuts inside
the key `brand`, so `brand=nike and color=red` does not parse to the claimed
mapping (it yields `{"": "nike", "color": "red"}`). -/
theorem parse_filter_and_inside_key :
    parse_filter (some (str "brand=nike and color=red")) ≠
      [(str "brand", str "nike"), (str "color", str "red")] := by
  decide

/-- C3 amended: for keys and values free of the substring `and`, with
`=`-free keys and distinct trimmed keys, the parser maps
`k1=v1 and k2=v2` to `{trim k1: trim v1, trim k2: trim v2}`; empty or
absent input yields the empty mapping. -/
theorem parse_filter_two_clauses (k1 v1 k2 v2 : Str)
    (h1 : containsSub (str "and") k1 = false)
    (h2 : containsSub (str "and") v1 = false)
    (h3 : containsSub (str "and") k2 = false)
    (h4 : containsSub (str "and") v2 = false)
    (h5 : '=' ∉ k1) (h6 : '=' ∉ k2) (h7 : strip k1 ≠ strip k2) :
    parse_filter
        (some (k1 ++ str "=" ++ v1 ++ str " and " ++ k2 ++ str "=" ++ v2)) =
      [(strip k1, strip v1), (strip k2, strip v2)] ∧
    parse_filter (some []) = [] ∧ parse_filter none = [] := by
  rw [str_and] at h1 h2 h3 h4
  refine ⟨?_, rfl, rfl⟩
  have handA : containsSub ['a', 'n', 'd'] (k1 ++ '=' :: (v1 ++ [' '])) = false := by
    rw [containsSub_append_sep '=' (by decide) (by decide) k1 (v1 ++ [' ']),
      containsSub_append_sep ' ' (by decide) (by decide) v1 [], h1, h2]
    rfl
  have handB : containsSub ['a', 'n', 'd'] (' ' :: (k2 ++ '=' :: v2)) = false := by
    rw [show (' ' :: (k2 ++ '=' :: v2) : Str) = [] ++ ' ' :: (k2 ++ '=' :: v2)
        from rfl,
      containsSub_append_sep ' ' (by decide) (by decide) [] (k2 ++ '=' :: v2),
      containsSub_append_sep '=' (by decide) (by decide) k2 v2, h3, h4]
    rfl
  have hs_eq : k1 ++ str "=" ++ v1 ++ str " and " ++ k2 ++ str "=" ++ v2 =
      (k1 ++ '=' :: (v1 ++ [' '])) ++
        'a' :: 'n' :: 'd' :: (' ' :: (k2 ++ '=' :: v2)) := by
    simp [str_eq_lit, str_and_sp]
  rw [hs_eq]
  have hne : ((k1 ++ '=' :: (v1 ++ [' '])) ++
      'a' :: 'n' :: 'd' :: (' ' :: (k2 ++ '=' :: v2))).isEmpty = false := by
    rw [List.isEmpty_eq_false]
    intro hnil
    have hlen := congrArg List.length hnil
    simp [List.length_append] at hlen
  have hstep1 : parse_filter_step [] (k1 ++ '=' :: (v1 ++ [' '])) =
      [(strip k1, strip v1)] := by
    have hcont : (k1 ++ '=' :: (v1 ++ [' '])).contains '=' = true :=
      contains_eq_of_mem (by simp)
    simp only [parse_filter_step, hcont, if_true]
    rw [splitEqOnce_append (v1 ++ [' ']) k1 h5]
    show dictInsert (strip k1) (strip (v1 ++ [' '])) [] = _
    rw [strip_append_space (show pyIsSpace ' ' = true by decide) v1]
    rfl
  have hstep2 : parse_filter_step [(strip k1, strip v1)]
      (' ' :: (k2 ++ '=' :: v2)) =
      [(strip k1, strip v1), (strip k2, strip v2)] := by
    have hcont : (' ' :: (k2 ++ '=' :: v2)).contains '=' = true :=
      contains_eq_of_mem (by simp)
    have h6' : '=' ∉ (' ' :: k2 : Str) := by
      intro hm
      rcases List.mem_cons.mp hm with h' | h'
      · exact absurd h' (by decide)
      · exact h6 h'
    simp only [parse_filter_step, hcont, if_true]
    rw [show (' ' :: (k2 ++ '=' :: v2) : Str) = (' ' :: k2) ++ '=' :: v2
        from rfl,
      splitEqOnce_append v2 (' ' :: k2) h6']
    show dictInsert (strip (' ' :: k2)) (strip v2) [(strip k1, strip v1)] = _
    rw [strip_cons_space (show pyIsSpace ' ' = true by decide) k2]
    simp [dictInsert, h7]
  simp only [parse_filter, hne, Bool.false_eq_true, if_false]
  rw [splitOnAnd_append _ _ handA, splitOnAnd_of_no_occ _ handB,
    List.foldl_cons, List.foldl_cons, List.foldl_nil, hstep1, hstep2]

/-- C3 witness: a concrete well-behaved two-clause filter string. -/
theorem parse_filter_two_clauses_witness :
    ('=' ∉ (['k'] : Str)) ∧
    parse_filter
        (some (['k'] ++ str "=" ++ ['x'] ++ str " and " ++ ['m'] ++ str "=" ++ ['y'])) =
      [(strip ['k'], strip ['x']), (strip ['m'], strip ['y'])] :=
  ⟨by decide,
    (parse_filter_two_clauses ['k'] ['x'] ['m'] ['y'] (by decide) (by decide)
      (by decide) (by decide) (by decide) (by decide) (by decide)).1⟩

/-- C2 counterexample: a `summary_prompt_user` template supplied through the
episodic-memory short-term config is submitted verbatim; no `{max_length}`
clause is appended on that path. -/
theorem configured_prompt_bypasses_max_length :
    containsSub maxLengthTok
      (submitted_summary_prompt_user (some badPromptConf) ['k']) = false := by
  decide

/-- Splits the `summary_prompt_user` resolution of
`_create_session_if_not_exists` when the episodic-memory config supplies no
truthy template: either nothing is resolved (defaults apply later) or the
prompt-config fallback is used and its result carries `{max_length}`. -/
theorem resolve_spu_cases (c : AppConf)
    (hstm : truthyStr
      ((c.episodic_memory.bind (·.short_term_memory)).bind
        (·.summary_prompt_user)) = false) :
    (resolve_defaults (some c)).summary_prompt_user = none ∨
    ∃ u, (resolve_defaults (some c)).summary_prompt_user = some u ∧
      containsSub maxLengthTok u = true := by
  have hspu0 : overrideOptIfTruthy none
      ((c.episodic_memory.bind (·.short_term_memory)).bind
        (·.summary_prompt_user)) = none := by
    simp [overrideOptIfTruthy, hstm]
  simp only [resolve_defaults, hspu0, truthyStr, Bool.not_false, if_true]
  cases hp : c.prompt with
  | none => exact Or.inl rfl
  | some p =>
    by_cases hmax : containsSub maxLengthTok p.episode_summary_user_prompt = true
    · exact Or.inr ⟨p.episode_summary_user_prompt, by simp [hmax], hmax⟩
    · refine Or.inr ⟨p.episode_summary_user_prompt ++
        str "\n\nMax length: {max_length}", ?_, ?_⟩
      · simp [hmax]
      · exact containsSub_append_right (by decide) _

/-- C2 amended: when the session is absent and the episodic-memory config
supplies no (truthy) `summary_prompt_user` of its own, the record submitted
to the session store carries a `summary_prompt_user` containing the literal
`{max_length}` — the prompt-config fallback appends the synthesized clause
when needed and the hard-coded default already contains it.  A truthy
episodic-memory template is submitted verbatim (see the counterexample). -/
theorem provisioned_prompt_has_max_length (conf : Option AppConf) (k : Str)
    (store : SessionStore) (habs : dictFind k store = none)
    (hstm : truthyStr (configured_stm_prompt_user conf) = false) :
    ∃ rec : SessionRecord,
      dictFind k (create_session_if_not_exists conf k store) = some rec ∧
      containsSub maxLengthTok
        rec.param.short_term_memory.summary_prompt_user = true := by
  have hprompt : containsSub maxLengthTok
      (submitted_summary_prompt_user conf k) = true := by
    cases conf with
    | none =>
      show containsSub maxLengthTok defaultUserPrompt = true
      decide
    | some c =>
      have hstm' : truthyStr
          ((c.episodic_memory.bind (·.short_term_memory)).bind
            (·.summary_prompt_user)) = false := hstm
      show containsSub maxLengthTok
        (pyOrStr (resolve_defaults (some c)).summary_prompt_user
          defaultUserPrompt) = true
      rcases resolve_spu_cases c hstm' with h | ⟨u, h, hu⟩
      · rw [h]
        show containsSub maxLengthTok defaultUserPrompt = true
        decide
      · rw [h]
        show containsSub maxLengthTok
          (if u.isEmpty then defaultUserPrompt else u) = true
        by_cases he : u.isEmpty = true
        · rw [he, if_pos rfl]
          decide
        · rw [if_neg (by simpa using he)]
          exact hu
  have hex : session_exists (get_session_info store k) = false := by
    simp [get_session_info, habs, session_exists]
  refine ⟨_, ?_, hprompt⟩
  show dictFind k (create_session_if_not_exists conf k store) = some _
  simp only [create_session_if_not_exists, hex, Bool.false_eq_true, if_false]
  exact dictFind_dictInsert_self k _ store

/-- C2 witness: provisioning on the empty store with no configuration. -/
theorem provisioned_prompt_has_max_length_witness :
    dictFind ['k'] ([] : SessionStore) = none ∧
    ∃ rec : SessionRecord,
      dictFind ['k'] (create_session_if_not_exists none ['k'] []) = some rec ∧
      containsSub maxLengthTok
        rec.param.short_term_memory.summary_prompt_user = true :=
  ⟨rfl, provisioned_prompt_has_max_length none ['k'] [] rfl rfl⟩

/-- C7 witness: concrete separator-free identifiers. -/
theorem make_key_inj_witness :
    ('/' ∉ (['o'] : Str)) ∧
    (make_key ['o'] ['p'] = make_key ['o'] ['p'] ↔
      (['o'] : Str) = ['o'] ∧ (['p'] : Str) = ['p']) :=
  ⟨by decide,
    make_key_inj ['o'] ['p'] ['o'] ['p'] (by decide) (by decide) (by decide)
      (by decide)⟩

